/-
Verification of the ambari-manager playbook execution engine.

The Go source (package `ambari`: playbook.go, ssh.go, local.go, registry.go)
is embedded shallowly: every executor returns the ordered list of observable
side effects it performs together with an `Outcome` that is either normal
completion, a fatal `os.Exit` with a code, or a Go `panic`.  External
collaborators (the SSH transport, local process execution, topology queries,
interactive input) are modelled as oracle functions collected in `Env`.
-/
import Mathlib

set_option autoImplicit false

namespace Ambari

/-- Result of a computation in a process that may call `os.Exit` or `panic`. -/
inductive Outcome (α : Type) where
  | ok (a : α)
  | exit (code : Nat)
  | panicked (msg : String)
deriving Repr, DecidableEq

/-- `true` when the outcome is a Go panic. -/
def Outcome.isPanic {α : Type} : Outcome α → Bool
  | .panicked _ => true
  | _ => false

/-- Forget the value of an outcome (Go callers that ignore return values). -/
def Outcome.discard {α : Type} : Outcome α → Outcome Unit
  | .ok _ => .ok ()
  | .exit c => .exit c
  | .panicked s => .panicked s

/-- Host filter, embedding of the Go `Filter` value built by `CreateFilter`
(the `Filter` type itself is outside src; its fields are those passed at the
call sites in playbook.go and ssh.go). -/
structure Filter where
  service : String
  component : String
  hosts : String
  server : Bool
deriving Repr, DecidableEq

/-- Embedding of `CreateFilter(service, component, hosts, server)`. -/
def CreateFilter (service component hosts : String) (server : Bool) : Filter :=
  ⟨service, component, hosts, server⟩

/-- The zero value `Filter{}` used by `GetFilteredHosts(Filter{})` in ssh.go. -/
def emptyFilter : Filter := ⟨"", "", "", false⟩

/-- `RemoteResponse` from ssh.go: an ssh command output. -/
structure RemoteResponse where
  stdOut : String
  stdErr : String
  done : Bool
deriving Repr, DecidableEq

/-- Observable side effects of the engine, in program order. -/
inductive Effect where
  | print (msg : String)
  | sessionRun (host : String) (command : String)
  | localRun (prog : String) (args : List String)
  | downloadFile (file : String) (url : String)
  | copyToRemote (source : String) (target : String) (hosts : List String)
  | setConfig (configType : String) (configKey : String) (configValue : String)
  | serviceCommand (command : String) (f : Filter) (isService : Bool) (isComponent : Bool)
deriving Repr, DecidableEq

/-- Result of `ssh.Run(command, 60)`: stdout, stderr, completion flag, error. -/
structure SshResult where
  stdout : String
  stderr : String
  done : Bool
  err : Option String
deriving Repr, DecidableEq

/-- Result of `exec.Command(...).Run()`: captured stdout/stderr and the error
(`some` for a launch failure or a non-zero exit). -/
structure LocalResult where
  stdout : String
  stderr : String
  err : Option String
deriving Repr, DecidableEq

/-- Oracles for the external collaborators of the engine. -/
structure Env where
  sshRun : String → String → SshResult
  localRun : String → List String → LocalResult
  getFilteredHosts : Filter → List String
  interactive : String → String

/-- The active registry entry (`AmbariRegistry` struct; fields as in
registry.go plus the `ConnectionProfile` id read by ssh.go). -/
structure AmbariRegistry where
  name : String
  hostname : String
  port : Nat
  protocol : String
  username : String
  password : String
  cluster : String
  connectionProfile : String

/-- `Task` from playbook.go. `parameters` is `none` when the YAML map is nil. -/
structure Task where
  name : String
  type : String
  command : String
  hostComponentFilter : String
  ambariServerFilter : Bool
  ambariAgentFilter : Bool
  hostFilter : String
  serviceFilter : String
  componentFilter : String
  parameters : Option (List (String × String))
deriving Repr, DecidableEq

/-- `Input` from playbook.go. -/
structure Input where
  name : String
  default : String
deriving Repr, DecidableEq

/-- `Playbook` from playbook.go. -/
structure Playbook where
  name : String
  description : String
  tasks : List Task
  inputs : List Input
deriving Repr, DecidableEq

/-- The six task type constants from playbook.go. -/
def RemoteCommand : String := "RemoteCommand"

def LocalCommand : String := "LocalCommand"

def Download : String := "Download"

def Upload : String := "Upload"

def Config : String := "Config"

def AmbariCommand : String := "AmbariCommand"

/-- Embedding of Go `strings.Split` around a one-character separator, on the
character list of the string.  `strings.Split("", sep) = [""]`, empty pieces
are kept, as in Go. -/
def splitChar (sep : Char) : List Char → List (List Char)
  | [] => [[]]
  | c :: rest =>
    match splitChar sep rest with
    | [] => [[c]]
    | x :: xs => if c = sep then [] :: x :: xs else (c :: x) :: xs

/-- `strings.Split(s, sep)` for the one-character separators the source uses. -/
def goSplit (s : String) (sep : Char) : List String :=
  (splitChar sep s.data).map String.mk

/-- The per-host body of `RunRemoteHostCommand` (ssh.go lines 49-76), run for
each targeted host: open the ssh session and run the command, print the
header, and on a transport error panic (which kills the whole Go process);
otherwise print the captured output and record the host's `RemoteResponse`.
The concurrent fan-out with its `WaitGroup` barrier is modelled by folding
the hosts in order: each unit of work owns exactly one key of the result
mapping, so the join is order-independent for everything proved here. -/
def runHosts (env : Env) (command : String) :
    List String → List Effect × Outcome (List (String × RemoteResponse))
  | [] => ([], .ok [])
  | host :: rest =>
    let r := env.sshRun host command
    let header := host ++ " (done: " ++ toString r.done ++ ") - output:"
    match r.err with
    | some e =>
      ([.sessionRun host command, .print header],
       .panicked ("Can't run remote command: " ++ e))
    | none =>
      let outPrints :=
        (if r.stdout ≠ "" then [Effect.print r.stdout] else []) ++
        (if r.stderr ≠ "" then [Effect.print "std error:", Effect.print r.stderr] else [])
      let rec' := runHosts env command rest
      (Effect.sessionRun host command :: Effect.print header :: (outPrints ++ rec'.1),
       match rec'.2 with
       | .ok m => .ok ((host, ⟨r.stdout, r.stderr, r.done⟩) :: m)
       | .exit c => .exit c
       | .panicked s => .panicked s)

/-- The host set `RunRemoteHostCommand` actually targets (ssh.go lines 40-45):
the filtered hosts when non-empty, otherwise all hosts of the cluster
(`GetFilteredHosts(Filter{})`). -/
def selectHosts (env : Env) (filteredHosts : List String) : List String :=
  if filteredHosts.length > 0 then filteredHosts else env.getFilteredHosts emptyFilter

/-- Embedding of `RunRemoteHostCommand` (ssh.go lines 33-79). -/
def RunRemoteHostCommand (env : Env) (a : AmbariRegistry) (command : String)
    (filteredHosts : List String) : List Effect × Outcome (List (String × RemoteResponse)) :=
  if a.connectionProfile = "" then
    ([.print "No connection profile is attached for the active ambari server entry!"],
     .exit 1)
  else
    runHosts env command (selectHosts env filteredHosts)

/-- Embedding of `RunLocalCommand` (local.go lines 27-46). -/
def RunLocalCommand (env : Env) (command : String) (args : List String) :
    List Effect × Outcome (String × String) :=
  let r := env.localRun command args
  match r.err with
  | some e => ([.localRun command args, .print e], .exit 1)
  | none =>
    ([Effect.localRun command args] ++
     (if r.stdout ≠ "" then [Effect.print r.stdout] else []) ++
     (if r.stderr ≠ "" then [Effect.print r.stderr] else []),
     .ok (r.stdout, r.stderr))

/-- Embedding of `ExecuteRemoteCommandTask` (playbook.go lines 206-211).  The
call site there also passes `task.AmbariServerFilter`, but ssh.go's
`RunRemoteHostCommand` in this snapshot takes only the command and the host
map, and nothing proved here depends on that flag. -/
def ExecuteRemoteCommandTask (env : Env) (a : AmbariRegistry) (task : Task)
    (filteredHosts : List String) : List Effect × Outcome Unit :=
  if task.command ≠ "" then
    let r := RunRemoteHostCommand env a task.command filteredHosts
    (Effect.print ("Execute remote command: " ++ task.command) :: r.1, r.2.discard)
  else ([], .ok ())

/-- Embedding of `ExecuteLocalCommandTask` (playbook.go lines 240-250).  The
source splits on the space character and passes `splitted[0]` as the program
with `splitted[1:]` as arguments (the `len == 1` and `len > 1` branches both
have this shape). -/
def ExecuteLocalCommandTask (env : Env) (task : Task) : List Effect × Outcome Unit :=
  if task.command ≠ "" then
    match goSplit task.command ' ' with
    | [] =>
      ([.print ("Execute local command: " ++ task.command)],
       .panicked "runtime error: index out of range")
    | prog :: args =>
      let r := RunLocalCommand env prog args
      (Effect.print ("Execute local command: " ++ task.command) :: r.1, r.2.discard)
  else ([], .ok ())

/-- Embedding of `ExecuteDownloadFileTask` (playbook.go lines 253-275).  The
source sets `haveFile` only inside the `url`-present branch and tests
`!haveFile` before `!haveUrl`, so a missing `url` is also reported with the
message naming `file`, and the `url` message is unreachable. -/
def ExecuteDownloadFileTask (task : Task) : List Effect × Outcome Unit :=
  match task.parameters with
  | none => ([], .ok ())
  | some ps =>
    match ps.lookup "url" with
    | none => ([.print "'file' parameter is required for 'Download' task"], .exit 1)
    | some urlVal =>
      match ps.lookup "file" with
      | none => ([.print "'file' parameter is required for 'Download' task"], .exit 1)
      | some fileVal =>
        ([.print ("Execute download file command - url: " ++ urlVal ++
            ", location: " ++ fileVal),
          .downloadFile fileVal urlVal], .ok ())

/-- Embedding of `ExecuteUploadFileTask` (playbook.go lines 214-237): `source`
is checked before `target`, and the copy runs only when both are present.
`CopyToRemote` is outside src/, so the copy is recorded as an opaque effect
carrying its arguments (the server-filter flag is dropped as above). -/
def ExecuteUploadFileTask (task : Task) (filteredHosts : List String) :
    List Effect × Outcome Unit :=
  match task.parameters with
  | none => ([], .ok ())
  | some ps =>
    match ps.lookup "source" with
    | none => ([.print "'source' parameter is required for 'Upload' task"], .exit 1)
    | some sourceVal =>
      match ps.lookup "target" with
      | none => ([.print "'target' parameter is required for 'Upload' task"], .exit 1)
      | some targetVal =>
        ([.print ("Execute upload file command - source: " ++ sourceVal ++
            ", target: " ++ targetVal),
          .copyToRemote sourceVal targetVal filteredHosts], .ok ())

/-- Embedding of `ExecuteConfigCommand` (playbook.go lines 175-203): the
required parameters are checked in the order config_type, config_key,
config_value; the source's messages say 'Upload' task (as in the Go text). -/
def ExecuteConfigCommand (task : Task) : List Effect × Outcome Unit :=
  match task.parameters with
  | none => ([], .ok ())
  | some ps =>
    match ps.lookup "config_type" with
    | none => ([.print "'config_type' parameter is required for 'Upload' task"], .exit 1)
    | some configType =>
      match ps.lookup "config_key" with
      | none => ([.print "'config_key' parameter is required for 'Upload' task"], .exit 1)
      | some configKey =>
        match ps.lookup "config_value" with
        | none =>
          ([.print "'config_value' parameter is required for 'Upload' task"], .exit 1)
        | some configValue => ([.setConfig configType configKey configValue], .ok ())

/-- Embedding of `ExecuteAmbariCommand` (playbook.go lines 153-172):
`useComponentFilter` is set when the component filter is non-empty, and only
otherwise (`else if`) can `useServiceFilter` be set. -/
def ExecuteAmbariCommand (task : Task) : List Effect × Outcome Unit :=
  if task.command ≠ "" then
    let useComponentFilter : Bool := task.componentFilter ≠ ""
    let useServiceFilter : Bool := !useComponentFilter && (task.serviceFilter ≠ "")
    ((if useComponentFilter then
        [Effect.serviceCommand task.command (CreateFilter "" task.componentFilter "" false)
          useServiceFilter useComponentFilter]
      else []) ++
     (if useServiceFilter then
        [Effect.serviceCommand task.command (CreateFilter task.serviceFilter "" "" false)
          useServiceFilter useComponentFilter]
      else []), .ok ())
  else ([], .ok ())

/-- The hosts a task is dispatched against (playbook.go lines 118-122): the
filter query runs unless the task is agent-only, in which case the map stays
empty. -/
def taskFilteredHosts (env : Env) (task : Task) : List String :=
  if !task.ambariAgentFilter then
    env.getFilteredHosts
      (CreateFilter task.serviceFilter task.componentFilter task.hostFilter
        task.ambariServerFilter)
  else []

/-- The dispatch on `task.Type` (playbook.go lines 118-140).  The source tests
the six constants in six independent `if`s; as the constants are pairwise
distinct string literals at most one matches, so the chain below is
equivalent.  A non-empty unrecognized type matches none and does nothing. -/
def dispatchTask (env : Env) (a : AmbariRegistry) (task : Task) :
    List Effect × Outcome Unit :=
  let filteredHosts := taskFilteredHosts env task
  if task.type = RemoteCommand then ExecuteRemoteCommandTask env a task filteredHosts
  else if task.type = LocalCommand then ExecuteLocalCommandTask env task
  else if task.type = Download then ExecuteDownloadFileTask task
  else if task.type = Upload then ExecuteUploadFileTask task filteredHosts
  else if task.type = Config then ExecuteConfigCommand task
  else if task.type = AmbariCommand then ExecuteAmbariCommand task
  else ([], .ok ())

/-- Embedding of `ExecutePlaybook` (playbook.go lines 114-150) on the task
list: tasks run strictly in order; a task with empty `Type` prints the
required-field message and exits 1 when it is reached; an exit or panic in a
task stops everything after it. -/
def ExecutePlaybook (env : Env) (a : AmbariRegistry) :
    List Task → List Effect × Outcome Unit
  | [] => ([], .ok ())
  | task :: rest =>
    if task.type ≠ "" then
      let r := dispatchTask env a task
      match r.2 with
      | .ok _ =>
        let r2 := ExecutePlaybook env a rest
        (r.1 ++ r2.1, r2.2)
      | .exit c => (r.1, .exit c)
      | .panicked s => (r.1, .panicked s)
    else
      if task.name ≠ "" then
        ([.print ("Type field for task '" ++ task.name ++ "' is required!")], .exit 1)
      else
        ([.print "Type field for task is required!"], .exit 1)

/-- Variable maps (Go `map[string]interface{}` holding strings), as lookup
functions. -/
def VarMap : Type := String → Option String

/-- The empty map. -/
def emptyVarMap : VarMap := fun _ => none

/-- Go map assignment `m[k] = v`. -/
def insertVar (m : VarMap) (k v : String) : VarMap :=
  fun q => if q = k then some v else m q

/-- `z[0]` of `strings.Split(pair, "=")`: the text before the first `=`. -/
def tokenKey (t : String) : String :=
  match goSplit t '=' with
  | z0 :: _ => z0
  | [] => ""

/-- `z[1]` of `strings.Split(pair, "=")`: the text between the first and the
second `=` (the whole remainder when there is only one `=`). -/
def tokenVal (t : String) : String :=
  match goSplit t '=' with
  | _ :: z1 :: _ => z1
  | _ => ""

/-- The loop body of `createVarMap` (playbook.go lines 282-285) over the
space-separated pairs: `z := strings.Split(pair, "=")` and then
`resultMap[z[0]] = z[1]`; a pair that splits to a single piece (no `=` in it)
makes `z[1]` panic with an index-out-of-range runtime error. -/
def varPairsLoop : List String → VarMap → Outcome VarMap
  | [], m => .ok m
  | pair :: rest, m =>
    match goSplit pair '=' with
    | z0 :: z1 :: _ => varPairsLoop rest (insertVar m z0 z1)
    | _ => .panicked "runtime error: index out of range"

/-- Embedding of `createVarMap` (playbook.go lines 277-288). -/
def createVarMap (varMapStr : String) : Outcome VarMap :=
  if varMapStr ≠ "" then varPairsLoop (goSplit varMapStr ' ') emptyVarMap
  else .ok emptyVarMap

/-- The input-resolution loop of `LoadPlaybookFile` (playbook.go lines 84-97):
an input already set from the outside is kept; otherwise an input with an
empty default is asked for interactively, and one with a default gets the
default.  (The `len(Inputs) > 0` guard in the source is redundant with the
loop; the progress prints do not affect the resulting map and are not
modelled.) -/
def resolveInputs (env : Env) : List Input → VarMap → VarMap
  | [], m => m
  | input :: rest, m =>
    match m input.name with
    | some _ => resolveInputs env rest m
    | none =>
      if input.default = "" then
        resolveInputs env rest (insertVar m input.name (env.interactive ("Enter " ++ input.name)))
      else
        resolveInputs env rest (insertVar m input.name input.default)

/-- The variable map `LoadPlaybookFile` (playbook.go lines 71-111) resolves
and then hands to the template engine: `createVarMap` of the `--vars` string,
then the input-resolution loop.  File reading, YAML decoding and the
templating itself are external collaborators. -/
def loadPlaybookVarMap (env : Env) (playbook : Playbook) (varsInput : String) :
    Outcome VarMap :=
  match createVarMap varsInput with
  | .ok m => .ok (resolveInputs env playbook.inputs m)
  | .exit c => .exit c
  | .panicked s => .panicked s

/-- Split a character list at every character satisfying `p`, keeping empty
pieces (the predicate analogue of `splitChar`). -/
def splitPred (p : Char → Bool) : List Char → List (List Char)
  | [] => [[]]
  | c :: rest =>
    match splitPred p rest with
    | [] => [[c]]
    | x :: xs => if p c then [] :: x :: xs else (c :: x) :: xs

/-- Modelled from the spec: §4.3 says `runLocal` "splits the command string on
whitespace into a program name and arguments".  This is the claimed
behaviour — tokens are the maximal whitespace-free pieces — stated for
comparison with the source's split on the space character only. -/
def whitespaceSplit (s : String) : List String :=
  ((splitPred Char.isWhitespace s.data).map String.mk).filter (fun t => t ≠ "")

/-! Concrete fixtures for counterexamples and witnesses. -/

/-- A task with every field empty; the fixtures below override what they need. -/
def blankTask : Task :=
  { name := "", type := "", command := "", hostComponentFilter := ""
    ambariServerFilter := false, ambariAgentFilter := false, hostFilter := ""
    serviceFilter := "", componentFilter := "", parameters := none }

/-- An environment where every remote and local call succeeds and the cluster
has the single host `h1`. -/
def env0 : Env :=
  { sshRun := fun _ _ => ⟨"out", "", true, none⟩
    localRun := fun _ _ => ⟨"", "", none⟩
    getFilteredHosts := fun _ => ["h1"]
    interactive := fun _ => "" }

/-- An environment whose remote transport fails on every host. -/
def envErr : Env :=
  { sshRun := fun _ _ => ⟨"", "", false, some "dial tcp: connection refused"⟩
    localRun := fun _ _ => ⟨"", "", none⟩
    getFilteredHosts := fun _ => ["h1", "h2"]
    interactive := fun _ => "" }

/-- An active registry entry with connection profile `p1` attached. -/
def a0 : AmbariRegistry :=
  ⟨"c1", "ambari.example.com", 8080, "http", "admin", "admin", "cl1", "p1"⟩

/-- An active registry entry with no connection profile attached. -/
def aNoProfile : AmbariRegistry :=
  ⟨"c2", "ambari.example.com", 8080, "http", "admin", "admin", "cl1", ""⟩

/-- A remote-command task running `ls`. -/
def tRemote : Task := { blankTask with type := RemoteCommand, command := "ls" }

/-- A local-command task running `echo hi`. -/
def tEcho : Task := { blankTask with type := LocalCommand, command := "echo hi" }

/-- A task whose type is not one of the six recognized constants. -/
def tFoo : Task := { blankTask with type := "FooBar" }

/-- A named task with the type field unset. -/
def tNoType : Task := { blankTask with name := "broken" }

/-- A download task whose parameters carry `file` but no `url`. -/
def tDlMissingUrl : Task :=
  { blankTask with
    type := Download
    parameters := some [("file", "/tmp/f")] }

/-- A local-command task whose command contains a tab between the words. -/
def tTab : Task := { blankTask with type := LocalCommand, command := "echo\thi" }

/-- A control-plane command task with both a component and a service filter. -/
def tBothFilters : Task :=
  { blankTask with
    type := AmbariCommand
    command := "START"
    componentFilter := "C"
    serviceFilter := "S" }

/-! Shared lemmas. -/

lemma isPanic_iff {α : Type} (o : Outcome α) : o.isPanic = true ↔ ∃ s, o = .panicked s := by
  cases o <;> simp [Outcome.isPanic]

lemma runHosts_ok_keys (env : Env) (command : String) :
    ∀ (hosts : List String) (m : List (String × RemoteResponse)),
      (runHosts env command hosts).2 = .ok m → m.map Prod.fst = hosts := by
  intro hosts
  induction hosts with
  | nil =>
    intro m h
    simp only [runHosts, Outcome.ok.injEq] at h
    simp [← h]
  | cons host rest ih =>
    intro m h
    simp only [runHosts] at h
    cases herr : (env.sshRun host command).err with
    | some e => rw [herr] at h; simp at h
    | none =>
      rw [herr] at h
      cases hrec : (runHosts env command rest).2 with
      | ok m2 =>
        rw [hrec] at h
        simp only [Outcome.ok.injEq] at h
        subst h
        simp [ih m2 hrec]
      | exit c => rw [hrec] at h; simp at h
      | panicked s => rw [hrec] at h; simp at h

lemma runHosts_err_panics (env : Env) (command : String) :
    ∀ (hosts : List String) (h : String), h ∈ hosts →
      (env.sshRun h command).err.isSome = true →
      ((runHosts env command hosts).2).isPanic = true := by
  intro hosts
  induction hosts with
  | nil => intro h hmem; simp at hmem
  | cons host rest ih =>
    intro h hmem herr
    simp only [runHosts]
    cases he : (env.sshRun host command).err with
    | some e => simp [Outcome.isPanic]
    | none =>
      rcases List.mem_cons.mp hmem with rfl | hm
      · rw [he] at herr; simp at herr
      · have hp := ih h hm herr
        cases hrec : (runHosts env command rest).2 with
        | ok m => rw [hrec] at hp; simp [Outcome.isPanic] at hp
        | exit c => rw [hrec] at hp; simp [Outcome.isPanic] at hp
        | panicked s => simp [hrec, Outcome.isPanic]

lemma ExecutePlaybook_cons_ok (env : Env) (a : AmbariRegistry) (t : Task)
    (rest : List Task) (u : Unit) (htype : t.type ≠ "")
    (hd : (dispatchTask env a t).2 = .ok u) :
    ExecutePlaybook env a (t :: rest) =
      ((dispatchTask env a t).1 ++ (ExecutePlaybook env a rest).1,
       (ExecutePlaybook env a rest).2) := by
  simp [ExecutePlaybook, htype, hd]

lemma ExecutePlaybook_cons_exit (env : Env) (a : AmbariRegistry) (t : Task)
    (rest : List Task) (c : Nat) (htype : t.type ≠ "")
    (hd : (dispatchTask env a t).2 = .exit c) :
    ExecutePlaybook env a (t :: rest) = ((dispatchTask env a t).1, .exit c) := by
  simp [ExecutePlaybook, htype, hd]

lemma ExecutePlaybook_cons_panic (env : Env) (a : AmbariRegistry) (t : Task)
    (rest : List Task) (s : String) (htype : t.type ≠ "")
    (hd : (dispatchTask env a t).2 = .panicked s) :
    ExecutePlaybook env a (t :: rest) = ((dispatchTask env a t).1, .panicked s) := by
  simp [ExecutePlaybook, htype, hd]

/-- Tasks run strictly in order: a playbook that completed a prefix normally
continues with the suffix, accumulating effects. -/
lemma ExecutePlaybook_append (env : Env) (a : AmbariRegistry) :
    ∀ (pre post : List Task), (ExecutePlaybook env a pre).2 = .ok () →
      ExecutePlaybook env a (pre ++ post) =
        ((ExecutePlaybook env a pre).1 ++ (ExecutePlaybook env a post).1,
         (ExecutePlaybook env a post).2) := by
  intro pre
  induction pre with
  | nil => intro post _; simp [ExecutePlaybook]
  | cons t pre ih =>
    intro post hok
    by_cases ht : t.type ≠ ""
    · cases hd : (dispatchTask env a t).2 with
      | ok u =>
        rw [ExecutePlaybook_cons_ok env a t pre u ht hd] at hok
        rw [List.cons_append, ExecutePlaybook_cons_ok env a t (pre ++ post) u ht hd,
          ExecutePlaybook_cons_ok env a t pre u ht hd, ih post hok]
        simp
      | exit c =>
        rw [ExecutePlaybook_cons_exit env a t pre c ht hd] at hok
        simp at hok
      | panicked s =>
        rw [ExecutePlaybook_cons_panic env a t pre s ht hd] at hok
        simp at hok
    · have ht2 : t.type = "" := not_ne_iff.mp ht
      by_cases hn : t.name ≠ "" <;> simp [ExecutePlaybook, ht2, hn] at hok

/-! ### C1 — size of the result mapping of `RunRemoteHostCommand` -/

/-- C1 (amended): when `RunRemoteHostCommand` is passed a non-empty host set
and returns a mapping, that mapping has exactly one entry per targeted host,
in particular exactly N entries for a host set of size N ≥ 1, with no silent
drops.  (For N = 0 the source substitutes the full cluster host set; see the
counterexample.) -/
theorem runRemote_ok_size_eq_hosts (env : Env) (a : AmbariRegistry) (command : String)
    (hosts : List String) (m : List (String × RemoteResponse))
    (hne : hosts ≠ [])
    (hok : (RunRemoteHostCommand env a command hosts).2 = .ok m) :
    m.map Prod.fst = hosts ∧ m.length = hosts.length := by
  by_cases hp : a.connectionProfile = ""
  · simp [RunRemoteHostCommand, hp] at hok
  · rw [RunRemoteHostCommand, if_neg hp] at hok
    have hsel : selectHosts env hosts = hosts := by
      have : 0 < hosts.length := List.length_pos.mpr hne
      simp [selectHosts, this]
    rw [hsel] at hok
    have hkeys := runHosts_ok_keys env command hosts m hok
    exact ⟨hkeys, by rw [← hkeys, List.length_map]⟩

/-- C1 counterexample: an empty host set (N = 0) passed to
`RunRemoteHostCommand` does not produce an empty mapping — the source
replaces it with the full cluster host set (here the one host `h1`), so the
mapping has 1 entry, not 0. -/
theorem runRemote_empty_hostset_counterexample :
    (RunRemoteHostCommand env0 a0 "ls" []).2 =
      Outcome.ok [("h1", ⟨"out", "", true⟩)] ∧
    ([("h1", (⟨"out", "", true⟩ : RemoteResponse))].length ≠ ([] : List String).length) :=
  ⟨rfl, by decide⟩

/-- C1 witness: the amended theorem applied to the one-host set `[h1]`. -/
theorem runRemote_ok_size_witness :
    List.map Prod.fst [("h1", (⟨"out", "", true⟩ : RemoteResponse))] = ["h1"] ∧
    [("h1", (⟨"out", "", true⟩ : RemoteResponse))].length = ["h1"].length :=
  runRemote_ok_size_eq_hosts env0 a0 "ls" ["h1"] [("h1", ⟨"out", "", true⟩)]
    (by decide) rfl

/-! ### C5 — component filter takes precedence in `ExecuteAmbariCommand` -/

/-- C5: a control-plane command task with both a component filter and a
service filter issues the command exactly once, through the component path
(`isComponent = true`, `isService = false`, filter built from the component
only); the service path never fires. -/
theorem ambari_command_component_precedence (task : Task)
    (hcmd : task.command ≠ "") (hcomp : task.componentFilter ≠ "")
    (_hserv : task.serviceFilter ≠ "") :
    ExecuteAmbariCommand task =
      ([Effect.serviceCommand task.command (CreateFilter "" task.componentFilter "" false)
          false true], .ok ()) := by
  simp [ExecuteAmbariCommand, hcmd, hcomp]

/-- C5 witness: the precedence theorem applied to a START command with
component filter `C` and service filter `S`. -/
theorem ambari_command_component_precedence_witness :
    ExecuteAmbariCommand tBothFilters =
      ([Effect.serviceCommand "START" (CreateFilter "" "C" "" false) false true], .ok ()) :=
  ambari_command_component_precedence tBothFilters (by decide) (by decide) (by decide)

/-! ### C7 — missing connection profile is fatal before any remote work -/

/-- C7: `RunRemoteHostCommand` on a registry entry whose connection profile
id is empty exits the process with code 1 after only the error message: no
ssh session is opened and no per-host work starts (the effect list holds the
one print and nothing else). -/
theorem missing_connection_profile_fatal (env : Env) (a : AmbariRegistry)
    (command : String) (filteredHosts : List String)
    (h : a.connectionProfile = "") :
    RunRemoteHostCommand env a command filteredHosts =
      ([.print "No connection profile is attached for the active ambari server entry!"],
       .exit 1) := by
  simp [RunRemoteHostCommand, h]

/-- C7 witness: the theorem applied to the profile-less registry entry. -/
theorem missing_connection_profile_fatal_witness :
    RunRemoteHostCommand env0 aNoProfile "ls" ["h1"] =
      ([.print "No connection profile is attached for the active ambari server entry!"],
       .exit 1) :=
  missing_connection_profile_fatal env0 aNoProfile "ls" ["h1"] rfl

/-! ### C2 — a transport failure on one host aborts the whole playbook -/

/-- C2: if the transport reports an error on any host targeted by a
remote-command task, the command panics (the process dies): no result
mapping — hence no entry for any host — is returned, and in a playbook that
reached this task normally, no task after it contributes anything (the run
up to and including the failing task is the whole run). -/
theorem remote_transport_failure_aborts_playbook (env : Env) (a : AmbariRegistry)
    (pre : List Task) (t : Task) (rest : List Task) (h : String)
    (hpre : (ExecutePlaybook env a pre).2 = .ok ())
    (htype : t.type = RemoteCommand) (hcmd : t.command ≠ "")
    (hprof : a.connectionProfile ≠ "")
    (hmem : h ∈ selectHosts env (taskFilteredHosts env t))
    (herr : (env.sshRun h t.command).err.isSome = true) :
    ((RunRemoteHostCommand env a t.command (taskFilteredHosts env t)).2).isPanic = true ∧
    ((ExecutePlaybook env a (pre ++ t :: rest)).2).isPanic = true ∧
    ExecutePlaybook env a (pre ++ t :: rest) = ExecutePlaybook env a (pre ++ [t]) := by
  have hrun : ((RunRemoteHostCommand env a t.command (taskFilteredHosts env t)).2).isPanic
      = true := by
    rw [RunRemoteHostCommand, if_neg hprof]
    exact runHosts_err_panics env t.command _ h hmem herr
  obtain ⟨s, hs⟩ := (isPanic_iff _).mp hrun
  have hne : t.type ≠ "" := by rw [htype]; simp [RemoteCommand]
  have hd : (dispatchTask env a t).2 = .panicked s := by
    simp [dispatchTask, htype, ExecuteRemoteCommandTask, hcmd, hs, Outcome.discard]
  have hcons : ∀ r2 : List Task, ExecutePlaybook env a (t :: r2) =
      ((dispatchTask env a t).1, .panicked s) :=
    fun r2 => ExecutePlaybook_cons_panic env a t r2 s hne hd
  have happ1 := ExecutePlaybook_append env a pre (t :: rest) hpre
  have happ2 := ExecutePlaybook_append env a pre [t] hpre
  refine ⟨hrun, ?_, ?_⟩
  · rw [happ1]
    simp [hcons rest, Outcome.isPanic]
  · rw [happ1, happ2, hcons rest, hcons []]

/-- C2 witness: the abort theorem applied to a playbook `[tEcho, tRemote,
tEcho]` in an environment whose transport fails on host `h1`. -/
theorem remote_transport_failure_aborts_playbook_witness :
    ((RunRemoteHostCommand envErr a0 tRemote.command (taskFilteredHosts envErr tRemote)).2).isPanic = true ∧
    ((ExecutePlaybook envErr a0 ([tEcho] ++ tRemote :: [tEcho])).2).isPanic = true ∧
    ExecutePlaybook envErr a0 ([tEcho] ++ tRemote :: [tEcho]) =
      ExecutePlaybook envErr a0 ([tEcho] ++ [tRemote]) :=
  remote_transport_failure_aborts_playbook envErr a0 [tEcho] tRemote [tEcho] "h1"
    (by decide) rfl (by decide) (by decide) (by decide) rfl

/-! ### C3 — task-type validation is lazy, unrecognized types are skipped -/

/-- The six recognized task type strings. -/
def recognizedTypes : List String :=
  [RemoteCommand, LocalCommand, Download, Upload, Config, AmbariCommand]

/-- C3 counterexample: a playbook whose only task has the unrecognized type
`FooBar` does not abort at all — `ExecutePlaybook` matches none of the six
constants, performs nothing, reports nothing, and completes normally. -/
theorem unrecognized_type_no_abort_counterexample :
    ExecutePlaybook env0 a0 [tFoo] = ([], Outcome.ok ()) := by decide

/-- C3 (amended): type validation happens per task when the task is reached,
not up front.  A task with an empty type exits the process with code 1 at
that point (tasks before it have already run); a task with a non-empty
unrecognized type is silently skipped and the playbook continues. -/
theorem task_type_validation_lazy (env : Env) (a : AmbariRegistry) (t : Task)
    (rest : List Task) :
    (t.type = "" → (ExecutePlaybook env a (t :: rest)).2 = .exit 1) ∧
    (t.type ≠ "" → t.type ∉ recognizedTypes →
      ExecutePlaybook env a (t :: rest) = ExecutePlaybook env a rest) := by
  constructor
  · intro h
    by_cases hn : t.name ≠ "" <;> simp [ExecutePlaybook, h, hn]
  · intro hne hnr
    simp only [recognizedTypes, List.mem_cons, List.not_mem_nil, or_false, not_or] at hnr
    obtain ⟨h1, h2, h3, h4, h5, h6⟩ := hnr
    have hd : dispatchTask env a t = ([], .ok ()) := by
      simp [dispatchTask, h1, h2, h3, h4, h5, h6]
    rw [ExecutePlaybook_cons_ok env a t rest () hne (by rw [hd])]
    simp [hd]

/-- C3 witness: the amended theorem applied to a type-less task and to the
unrecognized `FooBar` task followed by a real task. -/
theorem task_type_validation_lazy_witness :
    (ExecutePlaybook env0 a0 [tNoType]).2 = .exit 1 ∧
    ExecutePlaybook env0 a0 [tFoo, tEcho] = ExecutePlaybook env0 a0 [tEcho] :=
  ⟨(task_type_validation_lazy env0 a0 tNoType []).1 rfl,
   (task_type_validation_lazy env0 a0 tFoo [tEcho]).2 (by decide) (by decide)⟩

/-! ### C4 — the Download validator names the wrong missing parameter -/

/-- C4 (code bug): a Download task whose parameters carry `file` but no `url`
aborts, but the message names `file` — the parameter that is present — not
the missing `url`: the source sets `haveFile` only inside the `url`-present
branch and tests `!haveFile` first, so the `'url' ... is required` message is
unreachable. -/
theorem download_missing_url_names_file :
    ExecuteDownloadFileTask tDlMissingUrl =
      ([Effect.print "'file' parameter is required for 'Download' task"], .exit 1) := by
  decide

/-! ### C9 — recognized type with absent payload is silently skipped -/

/-- A recognized task type whose required payload is absent: a command task
with an empty command string, or a parameter task with a nil parameters map
(playbook.go lines 207, 241, 154, 176, 215, 254: each executor is a no-op
then). -/
def payloadAbsent (t : Task) : Prop :=
  ((t.type = RemoteCommand ∨ t.type = LocalCommand ∨ t.type = AmbariCommand) ∧
    t.command = "") ∨
  ((t.type = Download ∨ t.type = Upload ∨ t.type = Config) ∧ t.parameters = none)

/-- C9: a task of recognized type with absent payload makes the dispatcher
perform no action and report no error — no effects, normal outcome — and the
playbook continues exactly as if the task were not there. -/
theorem absent_payload_silently_continues (env : Env) (a : AmbariRegistry)
    (t : Task) (rest : List Task) (h : payloadAbsent t) :
    dispatchTask env a t = ([], .ok ()) ∧
    ExecutePlaybook env a (t :: rest) = ExecutePlaybook env a rest := by
  have hd : dispatchTask env a t = ([], .ok ()) := by
    rcases h with ⟨ht, hcmd⟩ | ⟨ht, hpar⟩
    · rcases ht with ht | ht | ht <;>
        simp [dispatchTask, ht, ExecuteRemoteCommandTask, ExecuteLocalCommandTask,
          ExecuteAmbariCommand, hcmd, RemoteCommand, LocalCommand, AmbariCommand,
          Download, Upload, Config]
    · rcases ht with ht | ht | ht <;>
        simp [dispatchTask, ht, ExecuteDownloadFileTask, ExecuteUploadFileTask,
          ExecuteConfigCommand, hpar, RemoteCommand, LocalCommand, AmbariCommand,
          Download, Upload, Config]
  have hne : t.type ≠ "" := by
    rcases h with ⟨ht, _⟩ | ⟨ht, _⟩ <;> rcases ht with ht | ht | ht <;>
      simp [ht, RemoteCommand, LocalCommand, AmbariCommand, Download, Upload, Config]
  refine ⟨hd, ?_⟩
  rw [ExecutePlaybook_cons_ok env a t rest () hne (by rw [hd])]
  simp [hd]

/-- C9 witness: the theorem applied to a RemoteCommand task with an empty
command, followed by a real task. -/
theorem absent_payload_silently_continues_witness :
    dispatchTask env0 a0 { blankTask with type := RemoteCommand } = ([], .ok ()) ∧
    ExecutePlaybook env0 a0 [{ blankTask with type := RemoteCommand }, tEcho] =
      ExecutePlaybook env0 a0 [tEcho] :=
  absent_payload_silently_continues env0 a0 { blankTask with type := RemoteCommand }
    [tEcho] (Or.inl ⟨Or.inl rfl, rfl⟩)

/-! ### C8 — local command split: space character, not whitespace -/

/-- An environment whose local command execution fails (non-zero exit or
launch failure: `cmd.Run()` returns an error either way). -/
def envLocalErr : Env :=
  { env0 with localRun := fun _ _ => ⟨"", "", some "exit status 1"⟩ }

/-- C8 counterexample: the source splits the command on the space character
only, not on whitespace.  For the command string `echo<TAB>hi` the program
launched is the whole string with no arguments, while the spec's whitespace
split would give program `echo` with argument `hi`. -/
theorem local_command_tab_split_counterexample :
    (ExecuteLocalCommandTask env0 tTab).1 =
      [Effect.print "Execute local command: echo\thi", Effect.localRun "echo\thi" []] ∧
    whitespaceSplit "echo\thi" = ["echo", "hi"] ∧
    ("echo\thi" : String) ≠ "echo" :=
  ⟨by decide, by decide, by decide⟩

/-- C8 (amended): a non-empty local command is split on the space character
(not general whitespace) into a program name — the first space-separated
token — and the remaining tokens as arguments, with no shell-quoting; the
program is launched with exactly those arguments, and an error from the
launch (non-zero exit or failure to start) exits the process with code 1. -/
theorem local_command_space_split_fatal (env : Env) (task : Task)
    (prog : String) (args : List String)
    (hcmd : task.command ≠ "") (hsplit : goSplit task.command ' ' = prog :: args) :
    (ExecuteLocalCommandTask env task).1 =
      Effect.print ("Execute local command: " ++ task.command) ::
        (RunLocalCommand env prog args).1 ∧
    ((env.localRun prog args).err.isSome = true →
      (ExecuteLocalCommandTask env task).2 = .exit 1) := by
  constructor
  · simp [ExecuteLocalCommandTask, hcmd, hsplit]
  · intro herr
    obtain ⟨e, he⟩ := Option.isSome_iff_exists.mp herr
    simp [ExecuteLocalCommandTask, hcmd, hsplit, RunLocalCommand, he, Outcome.discard]

/-- C8 witness: the amended theorem applied to `echo hi` in an environment
where the local command fails. -/
theorem local_command_space_split_fatal_witness :
    (ExecuteLocalCommandTask envLocalErr tEcho).1 =
      Effect.print ("Execute local command: " ++ tEcho.command) ::
        (RunLocalCommand envLocalErr "echo" ["hi"]).1 ∧
    (ExecuteLocalCommandTask envLocalErr tEcho).2 = .exit 1 :=
  ⟨(local_command_space_split_fatal envLocalErr tEcho "echo" ["hi"]
      (by decide) (by decide)).1,
   (local_command_space_split_fatal envLocalErr tEcho "echo" ["hi"]
      (by decide) (by decide)).2 rfl⟩

/-! ### C6 — input defaults and overrides -/

lemma resolveInputs_preserve (env : Env) :
    ∀ (inputs : List Input) (m : VarMap) (k v : String),
      m k = some v → resolveInputs env inputs m k = some v := by
  intro inputs
  induction inputs with
  | nil => intro m k v h; simpa [resolveInputs] using h
  | cons i rest ih =>
    intro m k v h
    simp only [resolveInputs]
    cases hm : m i.name with
    | some w => exact ih m k v h
    | none =>
      have hk : ¬(k = i.name) := by
        rintro rfl; rw [h] at hm; cases hm
      by_cases hd : i.default = ""
      · rw [if_pos hd]
        exact ih _ k v (by simp [insertVar, hk, h])
      · rw [if_neg hd]
        exact ih _ k v (by simp [insertVar, hk, h])

/-- C6: over the input-resolution loop of `LoadPlaybookFile` — run on the
variable map the `--vars` string produced — an input with a default and no
externally supplied override resolves to its default, and an input with an
externally supplied override resolves to that override (never to the
default). -/
theorem input_default_and_override_resolution (env : Env) :
    ∀ (inputs : List Input) (m0 : VarMap) (i : Input),
      i ∈ inputs → (inputs.map Input.name).Nodup →
      ((m0 i.name = none → i.default ≠ "" →
          resolveInputs env inputs m0 i.name = some i.default) ∧
       (∀ ov, m0 i.name = some ov →
          resolveInputs env inputs m0 i.name = some ov)) := by
  intro inputs
  induction inputs with
  | nil => intro m0 i h; simp at h
  | cons j rest ih =>
    intro m0 i hmem hnodup
    have hnd : j.name ∉ rest.map Input.name ∧ (rest.map Input.name).Nodup := by
      simpa [List.nodup_cons] using hnodup
    refine ⟨?_, fun ov hov => resolveInputs_preserve env _ m0 _ ov hov⟩
    intro hnone hdef
    rcases List.mem_cons.mp hmem with rfl | hmem2
    · simp only [resolveInputs, hnone]
      rw [if_neg hdef]
      exact resolveInputs_preserve env rest _ i.name i.default (by simp [insertVar])
    · have hjne : ¬(i.name = j.name) := by
        intro he
        exact hnd.1 (he ▸ List.mem_map_of_mem Input.name hmem2)
      simp only [resolveInputs]
      cases hm : m0 j.name with
      | some w => exact (ih m0 i hmem2 hnd.2).1 hnone hdef
      | none =>
        by_cases hjd : j.default = ""
        · rw [if_pos hjd]
          exact (ih _ i hmem2 hnd.2).1 (by simp [insertVar, hjne, hnone]) hdef
        · rw [if_neg hjd]
          exact (ih _ i hmem2 hnd.2).1 (by simp [insertVar, hjne, hnone]) hdef

/-- The input `{name: A, default: x}` of the round-trip scenario. -/
def inputA : Input := ⟨"A", "x"⟩

/-- C6 witness: with no override, `A` resolves to the default `x`; with the
override `y` supplied, `A` resolves to `y`. -/
theorem input_default_and_override_resolution_witness :
    resolveInputs env0 [inputA] emptyVarMap "A" = some "x" ∧
    resolveInputs env0 [inputA] (insertVar emptyVarMap "A" "y") "A" = some "y" :=
  ⟨(input_default_and_override_resolution env0 [inputA] emptyVarMap inputA
      (by simp) (by simp)).1 rfl (by decide),
   (input_default_and_override_resolution env0 [inputA] (insertVar emptyVarMap "A" "y")
      inputA (by simp) (by simp)).2 "y" rfl⟩

/-! ### C10 — `createVarMap`: panic on tokens without `=`, mapping otherwise -/

lemma splitChar_ne_nil (sep : Char) : ∀ l : List Char, splitChar sep l ≠ [] := by
  intro l
  cases l with
  | nil => simp [splitChar]
  | cons c rest =>
    simp only [splitChar]
    cases h : splitChar sep rest with
    | nil => simp
    | cons x xs => by_cases hc : c = sep <;> simp [hc]

lemma splitChar_not_mem (sep : Char) :
    ∀ l : List Char, sep ∉ l → splitChar sep l = [l] := by
  intro l
  induction l with
  | nil => intro _; rfl
  | cons c rest ih =>
    intro h
    have hc : ¬(c = sep) := by rintro rfl; exact h (List.mem_cons_self _ _)
    have hrest : sep ∉ rest := fun hm => h (List.mem_cons_of_mem _ hm)
    simp [splitChar, ih hrest, hc]

lemma two_le_splitChar_of_mem (sep : Char) :
    ∀ l : List Char, sep ∈ l → 2 ≤ (splitChar sep l).length := by
  intro l
  induction l with
  | nil => intro h; simp at h
  | cons c rest ih =>
    intro h
    simp only [splitChar]
    cases hs : splitChar sep rest with
    | nil => exact absurd hs (splitChar_ne_nil sep rest)
    | cons x xs =>
      by_cases hc : c = sep
      · simp [hc]
      · have hm : sep ∈ rest := by
          rcases List.mem_cons.mp h with rfl | hm
          · exact absurd rfl hc
          · exact hm
        have h2 := ih hm
        rw [hs] at h2
        simp only [List.length_cons] at h2 ⊢
        simpa [hc] using h2

lemma goSplit_eq_single (t : String) (sep : Char) (h : sep ∉ t.data) :
    goSplit t sep = [t] := by
  unfold goSplit
  rw [splitChar_not_mem sep t.data h]
  rfl

lemma goSplit_two_le (t : String) (sep : Char) (h : sep ∈ t.data) :
    2 ≤ (goSplit t sep).length := by
  unfold goSplit
  rw [List.length_map]
  exact two_le_splitChar_of_mem sep t.data h

lemma varPairsLoop_panic :
    ∀ (tokens : List String) (m : VarMap) (t : String), t ∈ tokens → '=' ∉ t.data →
      ∃ msg, varPairsLoop tokens m = .panicked msg := by
  intro tokens
  induction tokens with
  | nil => intro m t h; simp at h
  | cons p rest ih =>
    intro m t hmem hno
    rcases List.mem_cons.mp hmem with rfl | hm
    · simp only [varPairsLoop, goSplit_eq_single t '=' hno]
      exact ⟨_, rfl⟩
    · simp only [varPairsLoop]
      cases hsp : goSplit p '=' with
      | nil => exact ⟨_, rfl⟩
      | cons z0 zs =>
        cases zs with
        | nil => exact ⟨_, rfl⟩
        | cons z1 zs2 => exact ih _ t hm hno

/-- The pure fold `createVarMap` computes when every pair is well-formed:
each token's key bound to its value, later tokens overriding earlier ones
(Go map assignment). -/
def varMapOf (tokens : List String) (m : VarMap) : VarMap :=
  tokens.foldl (fun acc t => insertVar acc (tokenKey t) (tokenVal t)) m

lemma varPairsLoop_ok :
    ∀ (tokens : List String) (m : VarMap), (∀ t ∈ tokens, '=' ∈ t.data) →
      varPairsLoop tokens m = .ok (varMapOf tokens m) := by
  intro tokens
  induction tokens with
  | nil => intro m _; rfl
  | cons p rest ih =>
    intro m h
    have hp : '=' ∈ p.data := h p (List.mem_cons_self _ _)
    have h2 := goSplit_two_le p '=' hp
    obtain ⟨z0, zs, hz⟩ : ∃ z0 zs, goSplit p '=' = z0 :: zs := by
      cases hg : goSplit p '=' with
      | nil => rw [hg] at h2; simp at h2
      | cons a b => exact ⟨a, b, rfl⟩
    obtain ⟨z1, zs2, rfl⟩ : ∃ z1 zs2, zs = z1 :: zs2 := by
      cases zs with
      | nil => rw [hz] at h2; simp at h2
      | cons c d => exact ⟨c, d, rfl⟩
    have hkey : tokenKey p = z0 := by simp [tokenKey, hz]
    have hval : tokenVal p = z1 := by simp [tokenVal, hz]
    simp only [varPairsLoop, hz]
    rw [ih _ (fun t ht => h t (List.mem_cons_of_mem _ ht))]
    simp [varMapOf, hkey, hval]

lemma varMapOf_notin :
    ∀ (tokens : List String) (m : VarMap) (k : String),
      (∀ t ∈ tokens, tokenKey t ≠ k) → varMapOf tokens m k = m k := by
  intro tokens
  induction tokens with
  | nil => intro m k _; rfl
  | cons p rest ih =>
    intro m k h
    have hk : ¬(k = tokenKey p) :=
      fun he => (h p (List.mem_cons_self _ _)) he.symm
    have hrest := ih (insertVar m (tokenKey p) (tokenVal p)) k
      (fun t ht => h t (List.mem_cons_of_mem _ ht))
    simp only [varMapOf, List.foldl_cons] at hrest ⊢
    rw [hrest]
    simp [insertVar, hk]

lemma varMapOf_mem :
    ∀ (tokens : List String) (m : VarMap) (t : String),
      (tokens.map tokenKey).Nodup → t ∈ tokens →
      varMapOf tokens m (tokenKey t) = some (tokenVal t) := by
  intro tokens
  induction tokens with
  | nil => intro m t _ h; simp at h
  | cons p rest ih =>
    intro m t hnd hmem
    have hnd2 : tokenKey p ∉ rest.map tokenKey ∧ (rest.map tokenKey).Nodup := by
      simpa [List.nodup_cons] using hnd
    rcases List.mem_cons.mp hmem with rfl | hm
    · have hfr : ∀ u ∈ rest, tokenKey u ≠ tokenKey t :=
        fun u hu he => hnd2.1 (he ▸ List.mem_map_of_mem tokenKey hu)
      have hframe := varMapOf_notin rest
        (insertVar m (tokenKey t) (tokenVal t)) (tokenKey t) hfr
      simp only [varMapOf, List.foldl_cons] at hframe ⊢
      rw [hframe]
      simp [insertVar]
    · have := ih (insertVar m (tokenKey p) (tokenVal p)) t hnd2.2 hm
      simpa [varMapOf] using this

/-- The lookup a caller can make on a `createVarMap` result: `none` unless
the call completed normally. -/
def lookupOk (o : Outcome VarMap) (k : String) : Option String :=
  match o with
  | .ok m => m k
  | _ => none

/-- C10: for a non-empty variable-input string, if any space-separated token
has no `=` character then `createVarMap` — and hence the `LoadPlaybookFile`
variable-map resolution — panics with an index-out-of-range error; if every
token has one, the call completes and (for pairwise distinct keys) maps each
token's key, the text before its first `=`, to the text between its first
and second `=`. -/
theorem createVarMap_panic_or_map (s : String) (hs : s ≠ "") :
    ((∃ t ∈ goSplit s ' ', '=' ∉ t.data) →
      (∃ msg, createVarMap s = .panicked msg) ∧
      (∀ (env : Env) (pb : Playbook), ∃ msg,
        loadPlaybookVarMap env pb s = .panicked msg)) ∧
    ((∀ t ∈ goSplit s ' ', '=' ∈ t.data) →
      ∃ m, createVarMap s = .ok m ∧
        (((goSplit s ' ').map tokenKey).Nodup →
          ∀ t ∈ goSplit s ' ', m (tokenKey t) = some (tokenVal t))) := by
  have hcv : createVarMap s = varPairsLoop (goSplit s ' ') emptyVarMap := by
    simp [createVarMap, hs]
  constructor
  · rintro ⟨t, hmem, hno⟩
    obtain ⟨msg, hmsg⟩ := varPairsLoop_panic (goSplit s ' ') emptyVarMap t hmem hno
    refine ⟨⟨msg, by rw [hcv, hmsg]⟩, fun env pb => ⟨msg, ?_⟩⟩
    rw [loadPlaybookVarMap, hcv, hmsg]
  · intro hall
    exact ⟨varMapOf (goSplit s ' ') emptyVarMap,
      by rw [hcv, varPairsLoop_ok _ _ hall],
      fun hnd t hmem => varMapOf_mem (goSplit s ' ') emptyVarMap t hnd hmem⟩

/-- C10 witness: `a k=v` (token `a` without `=`) panics; `k=v b=c` completes
and maps `k` to `v` and `b` to `c`. -/
theorem createVarMap_panic_or_map_witness :
    (createVarMap "a k=v").isPanic = true ∧
    lookupOk (createVarMap "k=v b=c") "k" = some "v" ∧
    lookupOk (createVarMap "k=v b=c") "b" = some "c" := by
  refine ⟨?_, ?_, ?_⟩
  · obtain ⟨⟨msg, hmsg⟩, _⟩ :=
      (createVarMap_panic_or_map "a k=v" (by decide)).1 ⟨"a", by decide, by decide⟩
    rw [hmsg]; rfl
  · obtain ⟨m, hok, hmap⟩ :=
      (createVarMap_panic_or_map "k=v b=c" (by decide)).2 (by decide)
    have h1 := hmap (by decide) "k=v" (by decide)
    rw [show tokenKey "k=v" = "k" from rfl, show tokenVal "k=v" = "v" from rfl] at h1
    simp [lookupOk, hok, h1]
  · obtain ⟨m, hok, hmap⟩ :=
      (createVarMap_panic_or_map "k=v b=c" (by decide)).2 (by decide)
    have h1 := hmap (by decide) "b=c" (by decide)
    rw [show tokenKey "b=c" = "b" from rfl, show tokenVal "b=c" = "c" from rfl] at h1
    simp [lookupOk, hok, h1]

end Ambari
